import Mathlib

/-!
Shallow embedding of the adjutant Task/Action orchestration engine.

The engine lives in `stacktask/api/v1/views.py` (orchestrator endpoints),
`base/models.py` (the Action variants NewUser, NewProject, ResetUser and
their validation phases) and `api_v1/views.py` (an earlier generation of
the same views, kept in the repository).  Django model rows are embedded
as Lean structures, the database as an explicit `World` state, and the
identity backend (`stacktask/actions/user_store.py`) as an explicit
`Backend` value.  Python exceptions raised inside a lifecycle phase are
embedded as `Except String`; the only organic raise sites of the phases
are dictionary key lookups (`keystone_user` claims, `token_data` fields,
the per-action `cache`), which are modelled one by one.
-/

namespace Adjutant

/-- A user record of the identity backend. -/
structure BUser where
  uname : String
  email : String
  password : String
  deriving Repr, DecidableEq

/-- A project record of the identity backend. -/
structure BProject where
  pid : String
  pname : String
  deriving Repr, DecidableEq

/-- The identity backend (`user_store.IdentityManager` wraps keystone; we embed
the store it mutates).  `grants` records every `add_user_role` call as the
triple that was passed (user and role may be absent results of a find). -/
structure Backend where
  users : List BUser
  projects : List BProject
  roles : List String
  grants : List (Option String × Option String × String)
  nextPid : Nat
  deriving Repr, DecidableEq

/-- `IdentityManager.find_user`: absent result is `none`, not an error. -/
def find_user (b : Backend) (name : String) : Option BUser :=
  b.users.find? (fun u => u.uname = name)

/-- `IdentityManager.get_project` by id. -/
def get_project (b : Backend) (pid : String) : Option BProject :=
  b.projects.find? (fun p => p.pid = pid)

/-- `IdentityManager.find_project` by name. -/
def find_project (b : Backend) (name : String) : Option BProject :=
  b.projects.find? (fun p => p.pname = name)

/-- `IdentityManager.find_role`. -/
def find_role (b : Backend) (name : String) : Option String :=
  b.roles.find? (fun r => r = name)

/-- `IdentityManager.create_user`. -/
def create_user (b : Backend) (name password email : String) : Backend × BUser :=
  let u : BUser := { uname := name, email := email, password := password }
  ({ b with users := b.users ++ [u] }, u)

/-- `IdentityManager.create_project`; keystone assigns the id. -/
def create_project (b : Backend) (name : String) : Backend × BProject :=
  let p : BProject := { pid := toString b.nextPid, pname := name }
  ({ b with projects := b.projects ++ [p], nextPid := b.nextPid + 1 }, p)

/-- `IdentityManager.add_user_role`: records the grant exactly as passed. -/
def add_user_role (b : Backend) (user role : Option String) (project : String) :
    Backend :=
  { b with grants := b.grants ++ [(user, role, project)] }

/-- `IdentityManager.update_user_password`; a `None` user would make the
keystone client raise, embedded as an error. -/
def update_user_password (b : Backend) (user : Option BUser) (pw : String) :
    Except String Backend :=
  match user with
  | none => .error "user is None"
  | some u =>
      .ok { b with
        users := b.users.map
          (fun v => if v.uname = u.uname then { v with password := pw } else v) }

/-- The requester identity claims (`request.keystone_user`, a JSON dict whose
keys may be absent; a missing key read raises `KeyError`). -/
structure KeystoneUser where
  roles : Option (List String)
  project_id : Option String
  deriving Repr, DecidableEq

/-- Dict read `keystone_user[key]` for the roles claim. -/
def kuRoles (ku : KeystoneUser) : Except String (List String) :=
  match ku.roles with
  | some r => .ok r
  | none => .error "roles"

/-- Dict read `keystone_user[key]` for the project id claim. -/
def kuProjectId (ku : KeystoneUser) : Except String String :=
  match ku.project_id with
  | some p => .ok p
  | none => .error "project_id"

/-- The validated per-variant payload an Action row stores (`action_data`
together with the `action_name` that selects the variant class). -/
inductive ActionData where
  | newUser (username email project_id role : String)
  | newProject (project_name username email : String)
  | resetUser (username email : String)
  deriving Repr, DecidableEq

/-- The variant tag (`action_name`). -/
inductive ActionKind where
  | newUser
  | newProject
  | resetUser
  deriving Repr, DecidableEq

def ActionData.kind : ActionData → ActionKind
  | .newUser .. => .newUser
  | .newProject .. => .newProject
  | .resetUser .. => .resetUser

/-- An `Action` database row (`base/models.py` class Action): validated data,
private cache, free-form state tag, the two phase flags and the position. -/
structure ActionRec where
  adata : ActionData
  cache : List (String × String)
  state : String
  valid : Bool
  need_token : Bool
  order : Nat
  deriving Repr, DecidableEq

/-- A freshly constructed Action row (`Action.objects.create` defaults:
`state="default"`, `valid=False`, `need_token=True`, empty cache). -/
def newActionRec (d : ActionData) (i : Nat) : ActionRec :=
  { adata := d, cache := [], state := "default", valid := false,
    need_token := true, order := i }

/-- `BaseAction.set_cache`. -/
def setCache (a : ActionRec) (key value : String) : ActionRec :=
  { a with cache := (key, value) :: a.cache.filter (fun kv => kv.1 ≠ key) }

/-- `BaseAction.get_cache`: a dict read, raising `KeyError` when absent. -/
def getCache (a : ActionRec) (key : String) : Except String String :=
  match a.cache.lookup key with
  | some v => .ok v
  | none => .error key

/-- Dict read `token_data[field]`. -/
def tokenField (td : List (String × String)) (f : String) : Except String String :=
  match td.lookup f with
  | some v => .ok v
  | none => .error f

/-- `NewUser._validate` (base/models.py lines 148-179).  Read-only against the
backend; mutates only the action flags.  The `keystone_user` dict reads can
raise; `or` short-circuits so `project_id` is only read when the requester is
not an admin. -/
def newUserValidate (b : Backend) (ku : KeystoneUser) (a : ActionRec)
    (username email project_id : String) :
    Except String (ActionRec × List String) := do
  let user := find_user b username
  let roles ← kuRoles ku
  let authorized ←
    if "admin" ∈ roles then pure true
    else do
      let kpid ← kuProjectId ku
      pure (kpid == project_id)
  if !authorized then
    return (a, ["Project id does not match keystone user project."])
  else
    match get_project b project_id with
    | none => return (a, ["Project does exist."])
    | some _ =>
      match user with
      | some u =>
          if u.email = email then
            return ({ a with valid := true
                             need_token := false
                             state := "existing" },
                    ["Existing user with matching email."])
          else
            return (a, ["Existing user with non-matching email."])
      | none =>
          return ({ a with valid := true }, ["No user present with username"])

/-- `NewUser._submit` (base/models.py lines 187-213). -/
def newUserSubmit (b : Backend) (ku : KeystoneUser) (a : ActionRec)
    (username email project_id role : String) (td : List (String × String)) :
    Except String (Backend × ActionRec × List String) := do
  let (a1, notes) ← newUserValidate b ku a username email project_id
  if a1.valid then
    if a1.state = "default" then
      let pw ← tokenField td "password"
      let (b1, u) := create_user b username pw email
      let r := find_role b1 role
      let b2 := add_user_role b1 (some u.uname) r project_id
      return (b2, a1, notes ++ ["User has been created with role in project."])
    else if a1.state = "existing" then
      let u := find_user b username
      let r := find_role b role
      let b1 := add_user_role b (u.map BUser.uname) r project_id
      return (b1, a1, notes ++ ["Existing user has been given role in project."])
    else
      return (b, a1, notes)
  else
    return (b, a1, notes)

/-- `NewProject._validate_project` (base/models.py lines 231-266): the user
branch may set `valid`/`state`/`need_token`; the project branch afterwards
forces `valid := false` when the project name already exists. -/
def newProjectValidateProject (b : Backend) (a : ActionRec)
    (project_name username email : String) : ActionRec × List String :=
  let user := find_user b username
  let project := find_project b project_name
  let (a1, notes1) :=
    match user with
    | some u =>
        if u.email = email then
          ({ a with valid := true, state := "existing", need_token := false },
           ["Existing user with matching email."])
        else
          (a, ["Existing user with non-matching email."])
    | none =>
        ({ a with valid := true }, ["No user present with username."])
  match project with
  | some _ =>
      ({ a1 with valid := false }, notes1 ++ ["Existing project with name."])
  | none =>
      (a1, notes1 ++ ["No existing project with name."])

/-- `NewProject._validate_user` (base/models.py lines 268-292). -/
def newProjectValidateUser (b : Backend) (a : ActionRec)
    (username email : String) : ActionRec × List String :=
  match find_user b username with
  | some u =>
      if u.email = email then
        ({ a with valid := true, state := "existing", need_token := false },
         ["Existing user with matching email."])
      else
        (a, ["Existing user with non-matching email."])
  | none =>
      ({ a with valid := true }, ["No user present with username."])

/-- `NewProject._post_approve` (base/models.py lines 297-309): re-validates,
then when valid creates the project immediately and caches its id. -/
def newProjectPostApprove (b : Backend) (a : ActionRec)
    (project_name username email : String) :
    Backend × ActionRec × List String :=
  let (a1, notes) := newProjectValidateProject b a project_name username email
  if a1.valid then
    let (b1, p) := create_project b project_name
    let a2 := setCache a1 "project_id" p.pid
    (b1, a2, notes ++ ["New project created."])
  else
    (b, a1, notes)

/-- `NewProject.default_roles`. -/
def defaultRoles : List String := ["Member", "project_owner"]

/-- `NewProject._submit` (base/models.py lines 311-346): re-validates the user
only, resolves the cached project id (a cache miss raises), a `None` project
makes the attribute read raise. -/
def newProjectSubmit (b : Backend) (a : ActionRec)
    (_project_name username email : String) (td : List (String × String)) :
    Except String (Backend × ActionRec × List String) := do
  let (a1, notes) := newProjectValidateUser b a username email
  if a1.valid then
    let pid ← getCache a1 "project_id"
    let project ←
      match get_project b pid with
      | some p => Except.ok p
      | none => Except.error "project is None"
    if a1.state = "default" then
      let pw ← tokenField td "password"
      let (b1, u) := create_user b username pw email
      let b2 := defaultRoles.foldl
        (fun acc r => add_user_role acc (some u.uname) (find_role acc r)
          project.pid) b1
      return (b2, a1, notes ++ ["New user created for project."])
    else if a1.state = "existing" then
      let u := find_user b username
      let b1 := defaultRoles.foldl
        (fun acc r => add_user_role acc (u.map BUser.uname) (find_role acc r)
          project.pid) b
      return (b1, a1, notes ++ ["Existing user attached to project."])
    else
      return (b, a1, notes)
  else
    return (b, a1, notes)

/-- `ResetUser._validate` (base/models.py lines 362-375): sets `valid := true`
only when the user exists with matching email; otherwise leaves the flag. -/
def resetUserValidate (b : Backend) (a : ActionRec)
    (username email : String) : ActionRec × List String :=
  match find_user b username with
  | some u =>
      if u.email = email then
        ({ a with valid := true }, ["Existing user with matching email."])
      else
        (a, ["Existing user with non-matching email."])
  | none =>
      (a, ["No user present with username"])

/-- `ResetUser._submit` (base/models.py lines 383-393). -/
def resetUserSubmit (b : Backend) (a : ActionRec)
    (username email : String) (td : List (String × String)) :
    Except String (Backend × ActionRec × List String) := do
  let (a1, notes) := resetUserValidate b a username email
  if a1.valid then
    let u := find_user b username
    let pw ← tokenField td "password"
    let b1 ← update_user_password b u pw
    return (b1, a1, notes ++ ["User password has been changed."])
  else
    return (b, a1, notes)

/-- Dynamic dispatch `action.get_action().pre_approve()`: `pre_approve` of all
three variants is its validation pass, read-only against the backend. -/
def runPreApprove (b : Backend) (ku : KeystoneUser) (a : ActionRec) :
    Except String (ActionRec × List String) :=
  match a.adata with
  | .newUser username email project_id _role =>
      newUserValidate b ku a username email project_id
  | .newProject project_name username email =>
      .ok (newProjectValidateProject b a project_name username email)
  | .resetUser username email =>
      .ok (resetUserValidate b a username email)

/-- Dynamic dispatch `post_approve()`: NewProject additionally creates the
project when valid. -/
def runPostApprove (b : Backend) (ku : KeystoneUser) (a : ActionRec) :
    Except String (Backend × ActionRec × List String) :=
  match a.adata with
  | .newUser username email project_id _role =>
      (newUserValidate b ku a username email project_id).map
        (fun (a1, notes) => (b, a1, notes))
  | .newProject project_name username email =>
      .ok (newProjectPostApprove b a project_name username email)
  | .resetUser username email =>
      let (a1, notes) := resetUserValidate b a username email
      .ok (b, a1, notes)

/-- Dynamic dispatch `submit(token_data)`. -/
def runSubmit (b : Backend) (ku : KeystoneUser) (a : ActionRec)
    (td : List (String × String)) :
    Except String (Backend × ActionRec × List String) :=
  match a.adata with
  | .newUser username email project_id role =>
      newUserSubmit b ku a username email project_id role td
  | .newProject project_name username email =>
      newProjectSubmit b a project_name username email td
  | .resetUser username email =>
      resetUserSubmit b a username email td

/-- A `Registration` database row (`api_v1/models.py` class Registration, the
Task aggregate) together with the Action rows that reference it. -/
structure Registration where
  uuid : Nat
  reg_ip : String
  keystone_user : KeystoneUser
  approved : Bool
  completed : Bool
  approved_on : Option Nat
  completed_on : Option Nat
  actions : List ActionRec
  deriving Repr, DecidableEq

/-- A `Token` database row. -/
structure TokenRec where
  reg : Nat
  tokenId : Nat
  expires : Nat
  deriving Repr, DecidableEq

/-- The body of a view response or of a notification notes dict. -/
inductive RespBody where
  | notesL (l : List String)
  | notesS (s : String)
  | errors (l : List String)
  | fieldErrors (l : List (String × List String))
  | fieldRequired (field : String)
  | errWithReg (l : List String) (reg : Nat)
  | crash
  deriving Repr, DecidableEq

/-- A view response: body plus HTTP status. -/
structure Resp where
  status : Nat
  body : RespBody
  deriving Repr, DecidableEq

/-- A `Notification` database row. -/
structure NotificationRec where
  reg : Nat
  notes : RespBody
  deriving Repr, DecidableEq

/-- The durable state the orchestrator drives: identity backend, Registration,
Token and Notification tables, id counters and the clock. -/
structure World where
  backend : Backend
  regs : List Registration
  tokens : List TokenRec
  notifs : List NotificationRec
  nextUuid : Nat
  nextToken : Nat
  now : Nat
  deriving Repr, DecidableEq

/-- `Registration.objects.get(uuid=uuid)`. -/
def findReg (w : World) (uuid : Nat) : Option Registration :=
  w.regs.find? (fun r => r.uuid = uuid)

/-- `Token.objects.get(token=id)`. -/
def findToken (w : World) (tid : Nat) : Option TokenRec :=
  w.tokens.find? (fun t => t.tokenId = tid)

/-- In-place update of a Registration table by primary key. -/
def saveList (regs : List Registration) (r : Registration) : List Registration :=
  regs.map (fun q => if q.uuid = r.uuid then r else q)

/-- Persist a mutated Registration row (in-place update by primary key). -/
def saveReg (w : World) (r : Registration) : World :=
  { w with regs := saveList w.regs r }

/-- `create_notification` (views.py lines 131-136). -/
def addNotif (w : World) (reg : Nat) (notes : RespBody) : World :=
  { w with notifs := w.notifs ++ [{ reg := reg, notes := notes }] }

/-- Token lifetime: `timedelta(hours=24)`, in seconds. -/
def tokenLifetime : Nat := 24 * 3600

/-- `create_token` (stacktask/api/v1/views.py lines 68-80): expiry is the
current time plus the fixed 24 hour lifetime. -/
def create_token (w : World) (reg : Nat) : World × TokenRec :=
  let t : TokenRec := { reg := reg, tokenId := w.nextToken,
                        expires := w.now + tokenLifetime }
  ({ w with tokens := w.tokens ++ [t], nextToken := w.nextToken + 1 }, t)

/-- The generic caller-facing server error message. -/
def genericMsg : String :=
  "Error: Something went wrong on the server. It will be looked into shortly."

/-- The generic 500 response body. -/
def genericBody : RespBody := .errors [genericMsg]

/-- A notification notes dict of the form produced at every orchestrator
catch site: the formatted exception plus the registration uuid. -/
def errNotes (e phase : String) (uuid : Nat) : RespBody :=
  .errWithReg ["Error: " ++ e ++ " while " ++ phase ++
               " registration. See registration itself for details."] uuid

/-- Registrations are iterated as `registration.actions`, the action set
ordered by the `order` column (`order_by` on the unique order index). -/
def ordered (acts : List ActionRec) : List ActionRec :=
  acts.insertionSort (fun a b => a.order ≤ b.order)

/-- The result a serializer yields for a payload: validated data or a dict of
per-field errors. -/
inductive SerResult where
  | ok (d : ActionData)
  | errs (e : List (String × List String))
  deriving Repr, DecidableEq

/-- `serializer.errors`: the empty dict after successful validation. -/
def SerResult.errorsOf : SerResult → List (String × List String)
  | .ok _ => []
  | .errs e => e

def SerResult.isOk : SerResult → Bool
  | .ok _ => true
  | .errs _ => false

/-- Python `dict.update`: overlapping keys are overwritten in place, new keys
appended in the updating dict order. -/
def dictUpdate (d e : List (String × List String)) :
    List (String × List String) :=
  d.map (fun kv => match e.lookup kv.1 with
    | some v => (kv.1, v)
    | none => kv) ++
  e.filter (fun kv => (d.lookup kv.1).isNone)

/-- A raw request payload: field name to value. -/
abbrev Payload := List (String × String)

/-- One configured action of an endpoint: its serializer, run against the
payload (the Registry pairs each action class with its serializer; all three
registered classes have one). -/
abbrev ActionConfig := Payload → SerResult

/-- Intake construction loop (stacktask/api/v1/views.py lines 750-782): each
Action row is created before its `pre_approve` runs, so the row of a failing
action persists; later actions are not constructed.  `pre_approve` of every
variant is backend read-only. -/
def preApproveFold (b : Backend) (ku : KeystoneUser) :
    List (Nat × ActionData) → List ActionRec × Option String
  | [] => ([], none)
  | (i, d) :: rest =>
      let a0 := newActionRec d i
      match runPreApprove b ku a0 with
      | .error e => ([a0], some e)
      | .ok (a1, _) =>
          let (as1, err) := preApproveFold b ku rest
          (a1 :: as1, err)

/-- The outcome dict of `ActionView.process_actions`: either the created
registration or an errors dict (either field errors or the generic
server-error body, both flowing through the same `errors` key). -/
inductive ProcResult where
  | created (uuid : Nat)
  | failed (body : RespBody)
  deriving Repr, DecidableEq

/-- `ActionView.process_actions` (stacktask/api/v1/views.py lines 706-794):
run every configured serializer first; on any failure return the merged field
errors with nothing created; otherwise create the Registration, then construct
and `pre_approve` each Action in order.  A `pre_approve` raise records a
Notification and yields the generic error, the Registration staying
persisted. -/
def process_actions (w : World) (cfg : List ActionConfig) (payload : Payload)
    (ip : String) (ku : KeystoneUser) : World × ProcResult :=
  let results := cfg.map (fun s => s payload)
  if results.all SerResult.isOk then
    let uuid := w.nextUuid
    let datas := results.filterMap (fun r => match r with
      | .ok d => some d
      | .errs _ => none)
    let (acts, err) := preApproveFold w.backend ku datas.enum
    let reg : Registration :=
      { uuid := uuid, reg_ip := ip, keystone_user := ku,
        approved := false, completed := false,
        approved_on := none, completed_on := none, actions := acts }
    let w1 := { w with regs := w.regs ++ [reg], nextUuid := w.nextUuid + 1 }
    match err with
    | some e =>
        (addNotif w1 uuid (errNotes e "setting up" uuid), .failed genericBody)
    | none => (w1, .created uuid)
  else
    let errors := results.foldl (fun acc r => dictUpdate acc r.errorsOf) []
    (w, .failed (.fieldErrors errors))

/-- The `post_approve` loop shared by the approval endpoints: each action in
order, threading the backend (NewProject creates its project here); a raise
stops the loop, earlier actions staying mutated and the rest untouched. -/
def postApproveFold (b : Backend) (ku : KeystoneUser) :
    List ActionRec → Backend × List ActionRec × Option String
  | [] => (b, [], none)
  | a :: rest =>
      match runPostApprove b ku a with
      | .error e => (b, a :: rest, some e)
      | .ok (b1, a1, _) =>
          let (b2, as1, err) := postApproveFold b1 ku rest
          (b2, a1 :: as1, err)

/-- The `submit` loop: each action in order with the collected token data;
the third component lists the `order` of every action on which `submit` was
invoked, in invocation sequence. -/
def submitFold (b : Backend) (ku : KeystoneUser) (td : List (String × String)) :
    List ActionRec → Backend × List ActionRec × List Nat × Option String
  | [] => (b, [], [], none)
  | a :: rest =>
      match runSubmit b ku a td with
      | .error e => (b, a :: rest, [a.order], some e)
      | .ok (b1, a1, _) =>
          let (b2, as1, evs, err) := submitFold b1 ku td rest
          (b2, a1 :: as1, a.order :: evs, err)

/-- `RegistrationDetail.post` (stacktask/api/v1/views.py lines 330-461), the
admin approval endpoint: lookup, `approved` field check, completed check, run
`post_approve` on every action, and only when every action is valid mark the
registration approved and branch on the token need.  A raise during
`post_approve` or `submit` records a Notification and returns the
notification notes themselves with status 500.  `tec` states whether the
token email template is configured (its absence raises `KeyError`). -/
def regApprove (w : World) (uuid : Nat) (approvedField : Bool) (tec : Bool) :
    World × Resp :=
  match findReg w uuid with
  | none => (w, ⟨404, .errors ["No registration with this id."]⟩)
  | some reg =>
    if !approvedField then
      (w, ⟨400, .fieldRequired "approved"⟩)
    else if reg.completed then
      (w, ⟨400, .errors ["This registration has already been completed."]⟩)
    else
      let acts := ordered reg.actions
      let (b1, acts1, err) := postApproveFold w.backend reg.keystone_user acts
      let reg1 := { reg with actions := acts1 }
      let w1 := saveReg { w with backend := b1 } reg1
      match err with
      | some e =>
          let notes := errNotes e "approving" uuid
          (addNotif w1 uuid notes, ⟨500, notes⟩)
      | none =>
        if acts1.all (fun a => a.valid) then
          let reg2 := { reg1 with approved := true, approved_on := some w.now }
          let w2 := saveReg w1 reg2
          if acts1.any (fun a => a.need_token) then
            let (w3, _t) := create_token w2 uuid
            if tec then
              (w3, ⟨200, .notesL ["created token"]⟩)
            else
              let notes := RespBody.errWithReg
                ["Error: token while sending token. See registration itself for details."]
                uuid
              (addNotif w3 uuid notes, ⟨500, genericBody⟩)
          else
            let (b3, acts3, _evs, serr) :=
              submitFold w2.backend reg2.keystone_user [] acts1
            let reg3 := { reg2 with actions := acts3 }
            let w3 := saveReg { w2 with backend := b3 } reg3
            match serr with
            | some e =>
                let notes := errNotes e "submitting" uuid
                (addNotif w3 uuid notes, ⟨500, notes⟩)
            | none =>
                let reg4 := { reg3 with completed := true
                                        completed_on := some w.now }
                (saveReg w3 reg4,
                 ⟨200, .notesS "Registration completed successfully."⟩)
        else
          (w1, ⟨400, .errors ["actions invalid"]⟩)

/-- `ActionView.approve` (stacktask/api/v1/views.py lines 796-925), the
auto-approval path: the registration is marked approved and saved first,
unconditionally; the existing `valid` flags gate the `post_approve` loop; all
catch sites here return the generic body. -/
def actionApprove (w : World) (uuid : Nat) (tec : Bool) : World × Resp :=
  match findReg w uuid with
  | none => (w, ⟨404, .errors ["No registration with this id."]⟩)
  | some reg =>
    let reg1 := { reg with approved := true, approved_on := some w.now }
    let w1 := saveReg w reg1
    let acts := ordered reg1.actions
    if acts.all (fun a => a.valid) then
      let (b2, acts2, err) := postApproveFold w1.backend reg1.keystone_user acts
      let reg2 := { reg1 with actions := acts2 }
      let w2 := saveReg { w1 with backend := b2 } reg2
      match err with
      | some e =>
          (addNotif w2 uuid (errNotes e "approving" uuid), ⟨500, genericBody⟩)
      | none =>
        if acts2.all (fun a => a.valid) then
          if acts2.any (fun a => a.need_token) then
            let (w3, _t) := create_token w2 uuid
            if tec then
              (w3, ⟨200, .notesL ["created token"]⟩)
            else
              let notes := RespBody.errWithReg
                ["Error: token while sending token. See registration itself for details."]
                uuid
              (addNotif w3 uuid notes, ⟨500, genericBody⟩)
          else
            let (b3, acts3, _evs, serr) :=
              submitFold w2.backend reg2.keystone_user [] acts2
            let reg3 := { reg2 with actions := acts3 }
            let w3 := saveReg { w2 with backend := b3 } reg3
            match serr with
            | some e =>
                (addNotif w3 uuid (errNotes e "submitting" uuid),
                 ⟨500, genericBody⟩)
            | none =>
                let reg4 := { reg3 with completed := true
                                        completed_on := some w.now }
                (saveReg w3 reg4,
                 ⟨200, .notesS "Registration completed successfully."⟩)
        else
          (w2, ⟨400, .errors ["actions invalid"]⟩)
    else
      (w1, ⟨400, .errors ["actions invalid"]⟩)

/-- `RegistrationDetail.post` of the earlier generation (api_v1/views.py lines
122-198): after the completed check the registration is marked approved and
saved immediately, before any `post_approve` runs; no token email exists in
this generation. -/
def regApproveV0 (w : World) (uuid : Nat) (approvedField : Bool) :
    World × Resp :=
  match findReg w uuid with
  | none => (w, ⟨404, .notesL ["No registration with this id."]⟩)
  | some reg =>
    if !approvedField then
      (w, ⟨400, .fieldRequired "approved"⟩)
    else if reg.completed then
      (w, ⟨400, .notesL ["This registration has already been completed."]⟩)
    else
      let reg1 := { reg with approved := true, approved_on := some w.now }
      let w1 := saveReg w reg1
      let acts := ordered reg1.actions
      let (b2, acts2, err) := postApproveFold w1.backend reg1.keystone_user acts
      let reg2 := { reg1 with actions := acts2 }
      let w2 := saveReg { w1 with backend := b2 } reg2
      match err with
      | some e =>
          let notes := errNotes e "approving" uuid
          (addNotif w2 uuid notes, ⟨500, notes⟩)
      | none =>
        if acts2.all (fun a => a.valid) then
          if acts2.any (fun a => a.need_token) then
            ((create_token w2 uuid).1, ⟨200, .notesL ["created token"]⟩)
          else
            let (b3, acts3, _evs, serr) :=
              submitFold w2.backend reg2.keystone_user [] acts2
            let reg3 := { reg2 with actions := acts3 }
            let w3 := saveReg { w2 with backend := b3 } reg3
            match serr with
            | some e =>
                let notes := errNotes e "submitting" uuid
                (addNotif w3 uuid notes, ⟨500, notes⟩)
            | none =>
                let reg4 := { reg3 with completed := true
                                        completed_on := some w.now }
                (saveReg w3 reg4,
                 ⟨200, .notesS "Registration completed successfully."⟩)
        else
          (w2, ⟨400, .notesL ["actions invalid"]⟩)

/-- `token_fields` of a variant class. -/
def tokenFields : ActionKind → List String
  | .newUser => ["password"]
  | .newProject => ["password"]
  | .resetUser => ["password"]

/-- The aggregation of `token_fields` across a registration's actions into a
deduplicated required-field collection. -/
def requiredTokenFields (acts : List ActionRec) : List String :=
  acts.foldl (fun acc a =>
    acc ++ (tokenFields a.adata.kind).filter (fun f => f ∉ acc)) []

/-- `TokenDetail.post` (stacktask/api/v1/views.py lines 588-671), token
redemption: token lookup, conflict check on the completed task, lazy expiry
check (deleting the token), token-field collection, then the submit loop; on
full success complete the task and delete the token.  A dangling token
foreign key cannot occur under referential integrity; it is mapped to
`RespBody.crash` (the Python attribute error). -/
def tokenSubmit (w : World) (tid : Nat) (payload : Payload) : World × Resp :=
  match findToken w tid with
  | none => (w, ⟨404, .errors ["This token does not exist."]⟩)
  | some t =>
    match findReg w t.reg with
    | none => (w, ⟨500, .crash⟩)
    | some reg =>
      if reg.completed then
        (w, ⟨400, .errors ["This registration has already been completed."]⟩)
      else if t.expires < w.now then
        ({ w with tokens := w.tokens.filter (fun s => s.tokenId ≠ tid) },
         ⟨400, .errors ["This token has expired."]⟩)
      else
        let acts := ordered reg.actions
        let req := requiredTokenFields acts
        let missing := req.filter (fun f => (payload.lookup f).isNone)
        if missing ≠ [] then
          (w, ⟨400, .fieldErrors
            (missing.map (fun f => (f, ["This field is required."])))⟩)
        else
          let data := req.filterMap
            (fun f => (payload.lookup f).map (fun v => (f, v)))
          let (b1, acts1, _evs, serr) :=
            submitFold w.backend reg.keystone_user data acts
          let reg1 := { reg with actions := acts1 }
          let w1 := saveReg { w with backend := b1 } reg1
          match serr with
          | some e =>
              (addNotif w1 t.reg (errNotes e "submitting" t.reg),
               ⟨500, genericBody⟩)
          | none =>
              let reg2 := { reg1 with completed := true
                                      completed_on := some w.now }
              let w2 := saveReg w1 reg2
              ({ w2 with tokens := w2.tokens.filter (fun s => s.tokenId ≠ tid) },
               ⟨200, .notesS "Token submitted successfully."⟩)

/-- `TokenDetail.post` of the earlier generation (api_v1/views.py lines
242-297): same shape but with no completed-task conflict check, and the raise
site returns the notification notes (status 500) rather than the generic
body. -/
def tokenSubmitV0 (w : World) (tid : Nat) (payload : Payload) : World × Resp :=
  match findToken w tid with
  | none => (w, ⟨404, .notesL ["This token does not exist."]⟩)
  | some t =>
    match findReg w t.reg with
    | none => (w, ⟨500, .crash⟩)
    | some reg =>
      if t.expires < w.now then
        ({ w with tokens := w.tokens.filter (fun s => s.tokenId ≠ tid) },
         ⟨400, .notesL ["This token has expired."]⟩)
      else
        let acts := ordered reg.actions
        let req := requiredTokenFields acts
        let missing := req.filter (fun f => (payload.lookup f).isNone)
        if missing ≠ [] then
          (w, ⟨400, .fieldErrors
            (missing.map (fun f => (f, ["This field is required."])))⟩)
        else
          let data := req.filterMap
            (fun f => (payload.lookup f).map (fun v => (f, v)))
          let (b1, acts1, _evs, serr) :=
            submitFold w.backend reg.keystone_user data acts
          let reg1 := { reg with actions := acts1 }
          let w1 := saveReg { w with backend := b1 } reg1
          match serr with
          | some e =>
              let notes := errNotes e "submitting" t.reg
              (addNotif w1 t.reg notes, ⟨500, notes⟩)
          | none =>
              let reg2 := { reg1 with completed := true
                                      completed_on := some w.now }
              let w2 := saveReg w1 reg2
              ({ w2 with tokens := w2.tokens.filter (fun s => s.tokenId ≠ tid) },
               ⟨200, .notesS "Token submitted successfully."⟩)

/-- `TokenList.post` (stacktask/api/v1/views.py lines 480-538), token reissue:
requires an approved registration, deletes its previous tokens, creates a
fresh one. -/
def tokenReissue (w : World) (uuid : Option Nat) (tec : Bool) : World × Resp :=
  match uuid with
  | none => (w, ⟨400, .fieldRequired "registration"⟩)
  | some u =>
    match findReg w u with
    | none => (w, ⟨404, .errors ["No registration with this id."]⟩)
    | some reg =>
      if !reg.approved then
        (w, ⟨400, .errors ["This registration has not been approved."]⟩)
      else
        let w1 := { w with tokens := w.tokens.filter (fun t => t.reg ≠ u) }
        let (w2, _t) := create_token w1 u
        if tec then
          (w2, ⟨200, .notesL ["Token reissued."]⟩)
        else
          let notes := RespBody.errWithReg
            ["Error: token while sending token. See registration itself for details."]
            u
          (addNotif w2 u notes, ⟨500, genericBody⟩)

/-- `TokenList.delete` (stacktask/api/v1/views.py lines 540-548): purge all
expired tokens. -/
def tokenPurge (w : World) : World :=
  { w with tokens := w.tokens.filter (fun t => ¬ t.expires < w.now) }

/-- The update loop of `RegistrationDetail.put`: replace each action's data
with the re-validated payload, then re-run `pre_approve`; a raise stops the
loop after the failing action's data was already saved. -/
def updateFold (b : Backend) (ku : KeystoneUser)
    (ser : ActionKind → ActionConfig) (payload : Payload) :
    List ActionRec → List ActionRec × Option String
  | [] => ([], none)
  | a :: rest =>
      let a1 := match ser a.adata.kind payload with
        | .ok d => { a with adata := d }
        | .errs _ => a
      match runPreApprove b ku a1 with
      | .error e => (a1 :: rest, some e)
      | .ok (a2, _) =>
          let (as1, err) := updateFold b ku ser payload rest
          (a2 :: as1, err)

/-- `RegistrationDetail.put` (stacktask/api/v1/views.py lines 249-328): the
admin data-update path; all serializers first (reject on any failure with the
merged errors), then update data and re-run `pre_approve` per action. -/
def regUpdate (w : World) (uuid : Nat) (ser : ActionKind → ActionConfig)
    (payload : Payload) : World × Resp :=
  match findReg w uuid with
  | none => (w, ⟨404, .errors ["No registration with this id."]⟩)
  | some reg =>
    if reg.completed then
      (w, ⟨400, .errors ["This registration has already been completed."]⟩)
    else
      let acts := ordered reg.actions
      let results := acts.map (fun a => ser a.adata.kind payload)
      if results.all SerResult.isOk then
        let (acts1, err) := updateFold w.backend reg.keystone_user ser payload acts
        let reg1 := { reg with actions := acts1 }
        let w1 := saveReg w reg1
        match err with
        | some e =>
            (addNotif w1 uuid (errNotes e "updating" uuid), ⟨500, genericBody⟩)
        | none => (w1, ⟨200, .notesL ["Registration successfully updated."]⟩)
      else
        let errors := results.foldl (fun acc r => dictUpdate acc r.errorsOf) []
        (w, ⟨400, .fieldErrors errors⟩)

/-- `CreateProject.post` (stacktask/api/v1/views.py lines 928-956). -/
def createProject (w : World) (ser : ActionConfig) (payload : Payload)
    (ip : String) (ku : KeystoneUser) : World × Resp :=
  let (w1, res) := process_actions w [ser] payload ip ku
  match res with
  | .failed body => (w1, ⟨400, body⟩)
  | .created uuid =>
      (addNotif w1 uuid (.notesL ["New registration for CreateProject."]),
       ⟨200, .notesL ["registration created"]⟩)

/-- `AttachUser.post` (stacktask/api/v1/views.py lines 959-988): intake then
immediate auto-approval of the fresh registration. -/
def attachUser (w : World) (ser : ActionConfig) (payload : Payload)
    (ip : String) (ku : KeystoneUser) (tec : Bool) : World × Resp :=
  let (w1, res) := process_actions w [ser] payload ip ku
  match res with
  | .failed body => (w1, ⟨400, body⟩)
  | .created uuid => actionApprove w1 uuid tec

/-- `ResetPassword.post` (stacktask/api/v1/views.py lines 991-1011): intake
then immediate auto-approval of the fresh registration. -/
def resetPassword (w : World) (ser : ActionConfig) (payload : Payload)
    (ip : String) (ku : KeystoneUser) (tec : Bool) : World × Resp :=
  let (w1, res) := process_actions w [ser] payload ip ku
  match res with
  | .failed body => (w1, ⟨400, body⟩)
  | .created uuid => actionApprove w1 uuid tec

/-- One public operation of the orchestrator, as a step of the system's state
machine; `tick` lets the clock advance between requests and `purge` is the
expired-token sweep endpoint. -/
inductive Step : World → World → Prop where
  | intake (w : World) (cfg : List ActionConfig) (payload : Payload)
      (ip : String) (ku : KeystoneUser) :
      Step w (process_actions w cfg payload ip ku).1
  | approveAdmin (w : World) (uuid : Nat) (af tec : Bool) :
      Step w (regApprove w uuid af tec).1
  | approveAuto (w : World) (uuid : Nat) (tec : Bool) :
      Step w (actionApprove w uuid tec).1
  | approveAdminV0 (w : World) (uuid : Nat) (af : Bool) :
      Step w (regApproveV0 w uuid af).1
  | redeem (w : World) (tid : Nat) (payload : Payload) :
      Step w (tokenSubmit w tid payload).1
  | redeemV0 (w : World) (tid : Nat) (payload : Payload) :
      Step w (tokenSubmitV0 w tid payload).1
  | reissue (w : World) (uuid : Option Nat) (tec : Bool) :
      Step w (tokenReissue w uuid tec).1
  | update (w : World) (uuid : Nat) (ser : ActionKind → ActionConfig)
      (payload : Payload) :
      Step w (regUpdate w uuid ser payload).1
  | purge (w : World) : Step w (tokenPurge w)
  | tick (w : World) (dt : Nat) : Step w { w with now := w.now + dt }

/-- The empty initial state over an arbitrary initial identity backend. -/
def initWorld (b : Backend) : World :=
  { backend := b, regs := [], tokens := [], notifs := [],
    nextUuid := 0, nextToken := 0, now := 0 }

/-- States reachable from an initial state through public operations. -/
def Reachable (b : Backend) (w : World) : Prop :=
  Relation.ReflTransGen Step (initWorld b) w

/-- The inductive invariant over the Registration and Token tables:
completion implies approval, every live token's registration is approved,
token references and registration uuids stay below the uuid counter, and
uuids are pairwise distinct. -/
structure InvCore (regs : List Registration) (tokens : List TokenRec)
    (nu : Nat) : Prop where
  comp_app : ∀ r ∈ regs, r.completed = true → r.approved = true
  tok_app : ∀ t ∈ tokens, ∀ r ∈ regs, r.uuid = t.reg → r.approved = true
  tok_lt : ∀ t ∈ tokens, t.reg < nu
  reg_lt : ∀ r ∈ regs, r.uuid < nu
  distinct : regs.Pairwise (fun a b => a.uuid ≠ b.uuid)

/-- The invariant read off a world. -/
def Inv (w : World) : Prop := InvCore w.regs w.tokens w.nextUuid

lemma findReg_mem {w : World} {uuid : Nat} {reg : Registration}
    (h : findReg w uuid = some reg) : reg ∈ w.regs ∧ reg.uuid = uuid := by
  unfold findReg at h
  refine ⟨List.mem_of_find?_eq_some h, ?_⟩
  have h2 := List.find?_some h
  simpa using h2

lemma findToken_mem {w : World} {tid : Nat} {t : TokenRec}
    (h : findToken w tid = some t) : t ∈ w.tokens ∧ t.tokenId = tid := by
  unfold findToken at h
  refine ⟨List.mem_of_find?_eq_some h, ?_⟩
  have h2 := List.find?_some h
  simpa using h2

lemma mem_saveList {regs : List Registration} {r q2 : Registration}
    (h : q2 ∈ saveList regs r) : q2 = r ∨ (q2 ∈ regs ∧ q2.uuid ≠ r.uuid) := by
  unfold saveList at h
  rcases List.mem_map.mp h with ⟨q, hq, hmap⟩
  by_cases hu : q.uuid = r.uuid
  · left
    simp only [hu, if_pos] at hmap
    exact hmap.symm
  · right
    simp only [hu, if_neg, if_false] at hmap
    subst hmap
    exact ⟨hq, hu⟩

lemma saveList_pairwise {regs : List Registration} {r : Registration}
    (h : regs.Pairwise (fun a b => a.uuid ≠ b.uuid)) :
    (saveList regs r).Pairwise (fun a b => a.uuid ≠ b.uuid) := by
  unfold saveList
  rw [List.pairwise_map]
  refine h.imp ?_
  intro a b hab
  have ha : (if a.uuid = r.uuid then r else a).uuid = a.uuid := by
    split
    · rename_i hcond
      omega
    · rfl
  have hb : (if b.uuid = r.uuid then r else b).uuid = b.uuid := by
    split
    · rename_i hcond
      omega
    · rfl
  rw [ha, hb]
  exact hab

lemma invCore_save_preserve {regs : List Registration} {tokens : List TokenRec}
    {nu : Nat} {r reg : Registration}
    (inv : InvCore regs tokens nu) (hmem : reg ∈ regs)
    (huuid : r.uuid = reg.uuid) (happ : r.approved = reg.approved)
    (hcomp : r.completed = reg.completed) :
    InvCore (saveList regs r) tokens nu := by
  constructor
  · intro q hq hc
    rcases mem_saveList hq with rfl | ⟨hq2, _⟩
    · rw [happ]
      exact inv.comp_app reg hmem (hcomp ▸ hc)
    · exact inv.comp_app q hq2 hc
  · intro t ht q hq he
    rcases mem_saveList hq with rfl | ⟨hq2, _⟩
    · rw [happ]
      exact inv.tok_app t ht reg hmem (huuid ▸ he)
    · exact inv.tok_app t ht q hq2 he
  · exact inv.tok_lt
  · intro q hq
    rcases mem_saveList hq with rfl | ⟨hq2, _⟩
    · rw [huuid]
      exact inv.reg_lt reg hmem
    · exact inv.reg_lt q hq2
  · exact saveList_pairwise inv.distinct

lemma invCore_save_approved {regs : List Registration} {tokens : List TokenRec}
    {nu : Nat} {r : Registration}
    (inv : InvCore regs tokens nu) (happ : r.approved = true)
    (hnu : r.uuid < nu) :
    InvCore (saveList regs r) tokens nu := by
  constructor
  · intro q hq hc
    rcases mem_saveList hq with rfl | ⟨hq2, _⟩
    · exact happ
    · exact inv.comp_app q hq2 hc
  · intro t ht q hq he
    rcases mem_saveList hq with rfl | ⟨hq2, _⟩
    · exact happ
    · exact inv.tok_app t ht q hq2 he
  · exact inv.tok_lt
  · intro q hq
    rcases mem_saveList hq with rfl | ⟨hq2, _⟩
    · exact hnu
    · exact inv.reg_lt q hq2
  · exact saveList_pairwise inv.distinct

lemma invCore_addToken {regs : List Registration} {tokens : List TokenRec}
    {nu : Nat} {t : TokenRec}
    (inv : InvCore regs tokens nu)
    (happ : ∀ r ∈ regs, r.uuid = t.reg → r.approved = true)
    (hnu : t.reg < nu) :
    InvCore regs (tokens ++ [t]) nu := by
  constructor
  · exact inv.comp_app
  · intro s hs q hq he
    rcases List.mem_append.mp hs with hs2 | hs2
    · exact inv.tok_app s hs2 q hq he
    · have : s = t := by simpa using hs2
      subst this
      exact happ q hq he
  · intro s hs
    rcases List.mem_append.mp hs with hs2 | hs2
    · exact inv.tok_lt s hs2
    · have : s = t := by simpa using hs2
      subst this
      exact hnu
  · exact inv.reg_lt
  · exact inv.distinct

lemma invCore_subTokens {regs : List Registration}
    {tokens tokens2 : List TokenRec} {nu : Nat}
    (inv : InvCore regs tokens nu) (hsub : ∀ t ∈ tokens2, t ∈ tokens) :
    InvCore regs tokens2 nu := by
  constructor
  · exact inv.comp_app
  · intro t ht
    exact inv.tok_app t (hsub t ht)
  · intro t ht
    exact inv.tok_lt t (hsub t ht)
  · exact inv.reg_lt
  · exact inv.distinct

lemma invCore_addReg {regs : List Registration} {tokens : List TokenRec}
    {nu : Nat} {r : Registration}
    (inv : InvCore regs tokens nu)
    (hc : r.completed = true → r.approved = true)
    (huuid : r.uuid = nu) :
    InvCore (regs ++ [r]) tokens (nu + 1) := by
  constructor
  · intro q hq
    rcases List.mem_append.mp hq with hq2 | hq2
    · exact inv.comp_app q hq2
    · have : q = r := by simpa using hq2
      subst this
      exact hc
  · intro t ht q hq he
    rcases List.mem_append.mp hq with hq2 | hq2
    · exact inv.tok_app t ht q hq2 he
    · have : q = r := by simpa using hq2
      subst this
      exact absurd (he ▸ huuid ▸ inv.tok_lt t ht) (by omega)
  · intro t ht
    exact Nat.lt_succ_of_lt (inv.tok_lt t ht)
  · intro q hq
    rcases List.mem_append.mp hq with hq2 | hq2
    · exact Nat.lt_succ_of_lt (inv.reg_lt q hq2)
    · have : q = r := by simpa using hq2
      subst this
      omega
  · rw [List.pairwise_append]
    refine ⟨inv.distinct, List.pairwise_singleton _ _, ?_⟩
    intro a ha b hb
    have h1 := inv.reg_lt a ha
    have : b = r := by simpa using hb
    subst this
    omega

lemma uuid_unique {regs : List Registration}
    (hd : regs.Pairwise (fun a b => a.uuid ≠ b.uuid))
    {reg : Registration} (hmem : reg ∈ regs) {u : Nat} (huuid : reg.uuid = u)
    {r : Registration} (hr : r ∈ regs) (he : r.uuid = u) : r = reg := by
  by_contra hne
  have hsymm : Symmetric (fun a b : Registration => a.uuid ≠ b.uuid) :=
    fun a b hab => Ne.symm hab
  exact hd.forall hsymm hr hmem hne (he.trans huuid.symm)

lemma inv_process_actions (w : World) (cfg : List ActionConfig)
    (payload : Payload) (ip : String) (ku : KeystoneUser) (h : Inv w) :
    Inv (process_actions w cfg payload ip ku).1 := by
  unfold Inv process_actions
  dsimp only
  split
  · split
    · exact invCore_addReg h (by intro hc; cases hc) rfl
    · exact invCore_addReg h (by intro hc; cases hc) rfl
  · exact h

lemma inv_tokenPurge (w : World) (h : Inv w) : Inv (tokenPurge w) := by
  unfold Inv tokenPurge
  exact invCore_subTokens h (fun t ht => (List.mem_filter.mp ht).1)

lemma inv_tokenReissue (w : World) (uuid : Option Nat) (tec : Bool)
    (h : Inv w) : Inv (tokenReissue w uuid tec).1 := by
  unfold Inv tokenReissue
  dsimp only
  split
  · exact h
  · rename_i u
    split
    · exact h
    · rename_i reg hreg
      obtain ⟨hmem, huuid⟩ := findReg_mem hreg
      split
      · exact h
      · rename_i happ
        have happ2 : reg.approved = true := by
          revert happ
          cases reg.approved <;> simp
        have hfiltered : InvCore w.regs
            (w.tokens.filter (fun t => t.reg ≠ u)) w.nextUuid :=
          invCore_subTokens h (fun t ht => (List.mem_filter.mp ht).1)
        have hadd : InvCore w.regs
            ((w.tokens.filter (fun t => t.reg ≠ u)) ++
              [⟨u, w.nextToken, w.now + tokenLifetime⟩]) w.nextUuid := by
          refine invCore_addToken hfiltered ?_ ?_
          · intro r hr he
            have hr2 : r = reg := uuid_unique h.distinct hmem huuid hr he
            subst hr2
            exact happ2
          · exact huuid ▸ h.reg_lt reg hmem
        unfold create_token
        dsimp only
        split
        · exact hadd
        · exact hadd

lemma inv_regUpdate (w : World) (uuid : Nat) (ser : ActionKind → ActionConfig)
    (payload : Payload) (h : Inv w) : Inv (regUpdate w uuid ser payload).1 := by
  unfold Inv regUpdate
  dsimp only
  split
  · exact h
  · rename_i reg hreg
    obtain ⟨hmem, huuid⟩ := findReg_mem hreg
    split
    · exact h
    · split
      · split
        · exact invCore_save_preserve h hmem rfl rfl rfl
        · exact invCore_save_preserve h hmem rfl rfl rfl
      · exact h

lemma inv_tokenSubmit (w : World) (tid : Nat) (payload : Payload)
    (h : Inv w) : Inv (tokenSubmit w tid payload).1 := by
  unfold Inv tokenSubmit
  dsimp only
  split
  · exact h
  · rename_i t ht
    obtain ⟨htmem, _⟩ := findToken_mem ht
    split
    · exact h
    · rename_i reg hreg
      obtain ⟨hmem, huuid⟩ := findReg_mem hreg
      have happ : reg.approved = true := h.tok_app t htmem reg hmem huuid
      have hnu : reg.uuid < w.nextUuid := h.reg_lt reg hmem
      split
      · exact h
      · split
        · exact invCore_subTokens h (fun s hs => (List.mem_filter.mp hs).1)
        · split
          · exact h
          · split
            · exact invCore_save_approved h happ hnu
            · refine invCore_subTokens
                (invCore_save_approved (invCore_save_approved h happ hnu)
                  happ hnu) ?_
              intro s hs
              exact (List.mem_filter.mp hs).1

lemma inv_tokenSubmitV0 (w : World) (tid : Nat) (payload : Payload)
    (h : Inv w) : Inv (tokenSubmitV0 w tid payload).1 := by
  unfold Inv tokenSubmitV0
  dsimp only
  split
  · exact h
  · rename_i t ht
    obtain ⟨htmem, _⟩ := findToken_mem ht
    split
    · exact h
    · rename_i reg hreg
      obtain ⟨hmem, huuid⟩ := findReg_mem hreg
      have happ : reg.approved = true := h.tok_app t htmem reg hmem huuid
      have hnu : reg.uuid < w.nextUuid := h.reg_lt reg hmem
      split
      · exact invCore_subTokens h (fun s hs => (List.mem_filter.mp hs).1)
      · split
        · exact h
        · split
          · exact invCore_save_approved h happ hnu
          · refine invCore_subTokens
              (invCore_save_approved (invCore_save_approved h happ hnu)
                happ hnu) ?_
            intro s hs
            exact (List.mem_filter.mp hs).1

lemma saveList_all_approved {regs : List Registration} {r : Registration}
    (happ : r.approved = true) :
    ∀ q ∈ saveList regs r, q.uuid = r.uuid → q.approved = true := by
  intro q hq he
  rcases mem_saveList hq with rfl | ⟨_, hne⟩
  · exact happ
  · exact absurd he hne

lemma inv_regApprove (w : World) (uuid : Nat) (af tec : Bool) (h : Inv w) :
    Inv (regApprove w uuid af tec).1 := by
  unfold Inv regApprove
  dsimp only
  split
  · exact h
  · rename_i reg hreg
    obtain ⟨hmem, huuid⟩ := findReg_mem hreg
    have hnu : reg.uuid < w.nextUuid := h.reg_lt reg hmem
    split
    · exact h
    · split
      · exact h
      · have h1 : InvCore (saveList w.regs { reg with
            actions := (postApproveFold w.backend reg.keystone_user
              (ordered reg.actions)).2.1 }) w.tokens w.nextUuid :=
          invCore_save_preserve h hmem rfl rfl rfl
        split
        · exact h1
        · split
          · -- all valid: approved is set, then token or submit branch
            split
            · -- need token
              unfold create_token
              dsimp only
              split
              · exact invCore_addToken (invCore_save_approved h1 rfl hnu)
                  (fun r hr he =>
                    saveList_all_approved rfl r hr (he.trans huuid.symm))
                  (huuid ▸ hnu)
              · exact invCore_addToken (invCore_save_approved h1 rfl hnu)
                  (fun r hr he =>
                    saveList_all_approved rfl r hr (he.trans huuid.symm))
                  (huuid ▸ hnu)
            · -- submit branch
              split
              · exact invCore_save_approved
                  (invCore_save_approved h1 rfl hnu) rfl hnu
              · exact invCore_save_approved
                  (invCore_save_approved
                    (invCore_save_approved h1 rfl hnu) rfl hnu) rfl hnu
          · exact h1

lemma inv_actionApprove (w : World) (uuid : Nat) (tec : Bool) (h : Inv w) :
    Inv (actionApprove w uuid tec).1 := by
  unfold Inv actionApprove
  dsimp only
  split
  · exact h
  · rename_i reg hreg
    obtain ⟨hmem, huuid⟩ := findReg_mem hreg
    have hnu : reg.uuid < w.nextUuid := h.reg_lt reg hmem
    have h1 : InvCore
        (saveList w.regs
          { reg with
              approved := true
              approved_on := some w.now })
        w.tokens w.nextUuid :=
      invCore_save_approved h rfl hnu
    split
    · have h2 : InvCore
          (saveList
            (saveList w.regs
              { reg with
                  approved := true
                  approved_on := some w.now })
            { reg with
                approved := true
                approved_on := some w.now
                actions := (postApproveFold w.backend reg.keystone_user
                  (ordered reg.actions)).2.1 })
          w.tokens w.nextUuid :=
        invCore_save_approved h1 rfl hnu
      split
      · exact h2
      · split
        · split
          · -- need token
            unfold create_token
            dsimp only
            split
            · exact invCore_addToken h2
                (fun r hr he =>
                  saveList_all_approved rfl r hr (he.trans huuid.symm))
                (huuid ▸ hnu)
            · exact invCore_addToken h2
                (fun r hr he =>
                  saveList_all_approved rfl r hr (he.trans huuid.symm))
                (huuid ▸ hnu)
          · -- submit branch
            split
            · exact invCore_save_approved h2 rfl hnu
            · exact invCore_save_approved
                (invCore_save_approved h2 rfl hnu) rfl hnu
        · exact h2
    · exact h1

lemma inv_regApproveV0 (w : World) (uuid : Nat) (af : Bool) (h : Inv w) :
    Inv (regApproveV0 w uuid af).1 := by
  unfold Inv regApproveV0
  dsimp only
  split
  · exact h
  · rename_i reg hreg
    obtain ⟨hmem, huuid⟩ := findReg_mem hreg
    have hnu : reg.uuid < w.nextUuid := h.reg_lt reg hmem
    split
    · exact h
    · split
      · exact h
      · have h2 : InvCore
            (saveList
              (saveList w.regs
                { reg with
                    approved := true
                    approved_on := some w.now })
              { reg with
                  approved := true
                  approved_on := some w.now
                  actions := (postApproveFold w.backend reg.keystone_user
                    (ordered reg.actions)).2.1 })
            w.tokens w.nextUuid :=
          invCore_save_approved (invCore_save_approved h rfl hnu) rfl hnu
        split
        · exact h2
        · split
          · split
            · -- need token
              unfold create_token
              dsimp only
              exact invCore_addToken h2
                (fun r hr he =>
                  saveList_all_approved rfl r hr (he.trans huuid.symm))
                (huuid ▸ hnu)
            · -- submit branch
              split
              · exact invCore_save_approved h2 rfl hnu
              · exact invCore_save_approved
                  (invCore_save_approved h2 rfl hnu) rfl hnu
          · exact h2

lemma inv_init (b : Backend) : Inv (initWorld b) := by
  constructor
  · intro r hr
    cases hr
  · intro t ht
    cases ht
  · intro t ht
    cases ht
  · intro r hr
    cases hr
  · exact List.Pairwise.nil

lemma inv_step {w w2 : World} (h : Inv w) (s : Step w w2) : Inv w2 := by
  cases s with
  | intake cfg payload ip ku => exact inv_process_actions w cfg payload ip ku h
  | approveAdmin uuid af tec => exact inv_regApprove w uuid af tec h
  | approveAuto uuid tec => exact inv_actionApprove w uuid tec h
  | approveAdminV0 uuid af => exact inv_regApproveV0 w uuid af h
  | redeem tid payload => exact inv_tokenSubmit w tid payload h
  | redeemV0 tid payload => exact inv_tokenSubmitV0 w tid payload h
  | reissue uuid tec => exact inv_tokenReissue w uuid tec h
  | update uuid ser payload => exact inv_regUpdate w uuid ser payload h
  | purge => exact inv_tokenPurge w h
  | tick dt => exact h

lemma inv_reachable {b : Backend} {w : World} (h : Reachable b w) : Inv w := by
  induction h with
  | refl => exact inv_init b
  | tail _ s ih => exact inv_step ih s

lemma newUserValidate_order {b : Backend} {ku : KeystoneUser} {a : ActionRec}
    {un em pid : String} {res : ActionRec × List String}
    (h : newUserValidate b ku a un em pid = .ok res) : res.1.order = a.order := by
  unfold newUserValidate at h
  simp only [bind, Except.bind, pure, Except.pure] at h
  repeat' split at h
  all_goals simp_all
  all_goals subst h
  all_goals rfl

lemma newProjectValidateProject_order (b : Backend) (a : ActionRec)
    (pn un em : String) :
    (newProjectValidateProject b a pn un em).1.order = a.order := by
  unfold newProjectValidateProject
  dsimp only
  repeat' split
  all_goals rfl

lemma newProjectPostApprove_order (b : Backend) (a : ActionRec)
    (pn un em : String) :
    (newProjectPostApprove b a pn un em).2.1.order = a.order := by
  have hv := newProjectValidateProject_order b a pn un em
  unfold newProjectPostApprove
  cases hp : newProjectValidateProject b a pn un em with
  | mk a1 notes =>
      rw [hp] at hv
      dsimp only [create_project, setCache]
      split
      · exact hv
      · exact hv

lemma resetUserValidate_order (b : Backend) (a : ActionRec) (un em : String) :
    (resetUserValidate b a un em).1.order = a.order := by
  unfold resetUserValidate
  repeat' split
  all_goals rfl

lemma runPostApprove_order {b : Backend} {ku : KeystoneUser} {a : ActionRec}
    {res : Backend × ActionRec × List String}
    (h : runPostApprove b ku a = .ok res) : res.2.1.order = a.order := by
  unfold runPostApprove at h
  split at h
  · rename_i u1 u2 u3 u4 heq
    cases hv : newUserValidate b ku a u1 u2 u3 with
    | error e =>
        rw [hv] at h
        simp [Except.map] at h
    | ok p =>
        obtain ⟨a1, notes⟩ := p
        rw [hv] at h
        simp only [Except.map] at h
        cases h
        exact newUserValidate_order hv
  · rename_i pn un em heq
    cases h
    exact newProjectPostApprove_order b a pn un em
  · rename_i un em heq
    cases h
    exact resetUserValidate_order b a un em

lemma postApproveFold_orders (b : Backend) (ku : KeystoneUser)
    (acts : List ActionRec) :
    ((postApproveFold b ku acts).2.1).map (fun a => a.order) =
      acts.map (fun a => a.order) := by
  induction acts generalizing b with
  | nil => rfl
  | cons a rest ih =>
      unfold postApproveFold
      cases hr : runPostApprove b ku a with
      | error e => simp
      | ok p =>
          obtain ⟨b1, a1, notes⟩ := p
          have ho := runPostApprove_order hr
          have hi := ih b1
          cases hf : postApproveFold b1 ku rest with
          | mk b2 q =>
              obtain ⟨as1, err⟩ := q
              rw [hf] at hi
              simp only [List.map_cons]
              dsimp only at ho hi ⊢
              rw [ho, hf]
              simpa using hi

/-- The fields of a payload missing from a required set. -/
def missingFields (req : List String) (p : Payload) : List String :=
  req.filter (fun f => (p.lookup f).isNone)

/-- Read a validated payload field (present by construction). -/
def fieldOf (p : Payload) (f : String) : String := (p.lookup f).getD ""

/-- Modelled from the spec: `NewUserSerializer` (serializers.py is not under
src/).  Spec 4.1 and 4.5: NewUser consumes required fields
username, email, project_id, role; a missing field is a per-field
caller-side validation error. -/
def newUserSerializer : ActionConfig := fun p =>
  let m := missingFields ["username", "email", "project_id", "role"] p
  if m = [] then
    .ok (.newUser (fieldOf p "username") (fieldOf p "email")
      (fieldOf p "project_id") (fieldOf p "role"))
  else
    .errs (m.map (fun f => (f, ["This field is required."])))

/-- Modelled from the spec: `NewProjectSerializer` (serializers.py is not
under src/).  Spec 4.5: required fields project_name, username, email. -/
def newProjectSerializer : ActionConfig := fun p =>
  let m := missingFields ["project_name", "username", "email"] p
  if m = [] then
    .ok (.newProject (fieldOf p "project_name") (fieldOf p "username")
      (fieldOf p "email"))
  else
    .errs (m.map (fun f => (f, ["This field is required."])))

/-- Modelled from the spec: `ResetUserSerializer` (serializers.py is not
under src/).  Spec 4.5: required fields username, email. -/
def resetUserSerializer : ActionConfig := fun p =>
  let m := missingFields ["username", "email"] p
  if m = [] then
    .ok (.resetUser (fieldOf p "username") (fieldOf p "email"))
  else
    .errs (m.map (fun f => (f, ["This field is required."])))

/-- The Registry map `ACTION_CLASSES` restricted to serializers. -/
def specSer : ActionKind → ActionConfig
  | .newUser => newUserSerializer
  | .newProject => newProjectSerializer
  | .resetUser => resetUserSerializer

lemma saveList_uuid_prop {regs : List Registration} {r2 : Registration}
    (P : Registration → Prop) (hP : P r2) :
    ∀ q ∈ saveList regs r2, q.uuid = r2.uuid → P q := by
  intro q hq he
  rcases mem_saveList hq with rfl | ⟨_, hne⟩
  · exact hP
  · exact absurd he hne

lemma dictUpdate_nil (d : List (String × List String)) : dictUpdate d [] = d := by
  simp [dictUpdate]

lemma foldl_dictUpdate_failed (rs : List SerResult)
    (acc : List (String × List String)) :
    rs.foldl (fun acc r => dictUpdate acc r.errorsOf) acc =
      (rs.filter (fun r => !r.isOk)).foldl
        (fun acc r => dictUpdate acc r.errorsOf) acc := by
  induction rs generalizing acc with
  | nil => rfl
  | cons r rest ih =>
      cases r with
      | ok d =>
          simp only [List.foldl_cons, List.filter_cons, SerResult.isOk,
            SerResult.errorsOf, dictUpdate_nil, Bool.not_true]
          exact ih acc
      | errs e =>
          simp only [List.foldl_cons, List.filter_cons, SerResult.isOk,
            SerResult.errorsOf, Bool.not_false]
          exact ih (dictUpdate acc e)

lemma submitFold_events_complete (b : Backend) (ku : KeystoneUser)
    (td : List (String × String)) (acts : List ActionRec)
    (h : (submitFold b ku td acts).2.2.2 = none) :
    (submitFold b ku td acts).2.2.1 = acts.map (fun a => a.order) := by
  induction acts generalizing b with
  | nil => rfl
  | cons a rest ih =>
      unfold submitFold at h ⊢
      cases hr : runSubmit b ku a td with
      | error e =>
          rw [hr] at h
          cases h
      | ok p =>
          obtain ⟨b1, a1, notes⟩ := p
          rw [hr] at h
          dsimp only at h ⊢
          cases hf : submitFold b1 ku td rest with
          | mk bb q =>
              obtain ⟨as1, evs⟩ := q
              obtain ⟨evl, err⟩ := evs
              rw [hf] at h
              dsimp only at h ⊢
              have h2 := ih b1
              rw [hf] at h2
              dsimp only at h2
              simp only [List.map_cons]
              rw [h2 h]

instance : IsTotal ActionRec (fun a b => a.order ≤ b.order) :=
  ⟨fun a b => Nat.le_total a.order b.order⟩

instance : IsTrans ActionRec (fun a b => a.order ≤ b.order) :=
  ⟨fun _ _ _ => Nat.le_trans⟩

lemma ordered_orders_sorted (acts : List ActionRec) :
    List.Sorted (fun x y => x ≤ y) ((ordered acts).map (fun a => a.order)) := by
  unfold ordered
  have h := List.sorted_insertionSort
    (fun a b : ActionRec => a.order ≤ b.order) acts
  unfold List.Sorted at h ⊢
  rw [List.pairwise_map]
  exact h

/-! Concrete fixtures used by witnesses and counterexamples. -/

/-- A demonstration backend holding one user and the standard roles. -/
def demoBackend : Backend :=
  { users := [{ uname := "bob", email := "bob@example.com", password := "pw0" }],
    projects := [], roles := defaultRoles, grants := [], nextPid := 0 }

/-- A backend with no users. -/
def emptyBackend : Backend :=
  { users := [], projects := [], roles := defaultRoles, grants := [],
    nextPid := 0 }

/-- An unauthenticated requester: no identity claims present. -/
def anonKu : KeystoneUser := { roles := none, project_id := none }

/-- An admin requester. -/
def adminKu : KeystoneUser := { roles := some ["admin"], project_id := some "p0" }

/-- A fallback registration record for indexed lookups in closed statements. -/
def dummyReg : Registration :=
  { uuid := 0, reg_ip := "", keystone_user := anonKu, approved := false,
    completed := false, approved_on := none, completed_on := none,
    actions := [] }

/-- A NewProject intake payload. -/
def prjPayload : Payload :=
  [("project_name", "test_project"), ("username", "bob"),
   ("email", "bob@example.com")]

/-- A ResetUser intake payload. -/
def resetReqPayload : Payload :=
  [("username", "bob"), ("email", "bob@example.com")]

/-! Claim C4. -/

/-- C4: for every Task reachable through any sequence of the public
operations (process_actions, the approve endpoints, token redemption, token
reissue, update, plus clock advance and the expired-token purge),
`completed = true` implies `approved = true`. -/
theorem c4_completed_implies_approved (b : Backend) (w : World)
    (h : Reachable b w) (r : Registration) (hr : r ∈ w.regs)
    (hc : r.completed = true) : r.approved = true :=
  (inv_reachable h).comp_app r hr hc

/-- The world after a NewProject intake for an existing user followed by
admin approval: the task completes without a token. -/
def c4World : World :=
  (regApprove (process_actions (initWorld demoBackend) [newProjectSerializer]
    prjPayload "ip" anonKu).1 0 true true).1

/-- Witness for C4 at a concrete two-step run reaching a completed Task. -/
theorem c4_witness :
    (c4World.regs.getD 0 dummyReg).completed = true ∧
    (c4World.regs.getD 0 dummyReg).approved = true :=
  ⟨by decide,
   c4_completed_implies_approved demoBackend c4World
     (Relation.ReflTransGen.tail
       (Relation.ReflTransGen.tail Relation.ReflTransGen.refl
         (Step.intake (initWorld demoBackend) [newProjectSerializer]
           prjPayload "ip" anonKu))
       (Step.approveAdmin _ 0 true true))
     (c4World.regs.getD 0 dummyReg) (by decide) (by decide)⟩

/-! Claim C10. -/

/-- C10: every Token the engine creates goes through the single helper
`create_token`, whose expiry is exactly the fixed 24 hour lifetime after the
creation instant; no per-request input reaches the lifetime. -/
theorem c10_token_lifetime (w : World) (reg : Nat) :
    (create_token w reg).2.expires = w.now + tokenLifetime ∧
    tokenLifetime = 24 * 3600 ∧
    (create_token w reg).1.tokens = w.tokens ++ [(create_token w reg).2] :=
  ⟨rfl, rfl, rfl⟩

/-! Claim C6. -/

/-- C6: token redemption checks its preconditions in order: token exists
(else 404 and no state change), its task is not completed (else a conflict
and no state change, the token surviving), the token is unexpired (else the
token alone is deleted and expiry reported); no submit runs in any of the
three failure cases. -/
theorem c6_redeem_check_order (w : World) (tid : Nat) (payload : Payload) :
    (findToken w tid = none →
      tokenSubmit w tid payload =
        (w, ⟨404, .errors ["This token does not exist."]⟩)) ∧
    (∀ t : TokenRec, findToken w tid = some t →
      ∀ reg : Registration, findReg w t.reg = some reg →
        (reg.completed = true →
          tokenSubmit w tid payload =
            (w, ⟨400,
              .errors ["This registration has already been completed."]⟩)) ∧
        (reg.completed = false → t.expires < w.now →
          tokenSubmit w tid payload =
            ({ w with tokens := w.tokens.filter (fun s => s.tokenId ≠ tid) },
             ⟨400, .errors ["This token has expired."]⟩))) := by
  refine ⟨?_, ?_⟩
  · intro h
    unfold tokenSubmit
    rw [h]
  · intro t ht reg hreg
    refine ⟨?_, ?_⟩
    · intro hc
      unfold tokenSubmit
      simp [ht, hreg, hc]
    · intro hc hexp
      unfold tokenSubmit
      simp [ht, hreg, hc, hexp]

/-- A completed registration holding a live token, for the C6 witness. -/
def c6World : World :=
  { backend := emptyBackend,
    regs := [{ dummyReg with completed := true, approved := true }],
    tokens := [{ reg := 0, tokenId := 0, expires := 1000 }], notifs := [],
    nextUuid := 1, nextToken := 1, now := 10 }

/-- Witness for C6: redeeming against an already-completed task conflicts
and consumes nothing. -/
theorem c6_witness :
    tokenSubmit c6World 0 [] =
      (c6World,
       ⟨400, .errors ["This registration has already been completed."]⟩) :=
  ((c6_redeem_check_order c6World 0 []).2 ⟨0, 0, 1000⟩ (by decide)
    { dummyReg with completed := true, approved := true } (by decide)).1
    (by decide)

/-! Claim C1. -/

/-- The world after a first NewProject submission. -/
def c1World1 : World :=
  (createProject (initWorld emptyBackend) newProjectSerializer prjPayload
    "ip" anonKu).1

/-- The world after resubmitting the identical payload while the first Task
is still incomplete. -/
def c1World2 : World :=
  (createProject c1World1 newProjectSerializer prjPayload "ip" anonKu).1

/-- C1: the code has no duplicate-submission guard: resubmitting an
identical NewProject payload from the same requester while the first Task is
still incomplete succeeds and creates a second Task whose requester
attributes, source ip and action payload coincide with the first. -/
theorem c1_duplicate_task_created :
    (createProject c1World1 newProjectSerializer prjPayload "ip" anonKu).2 =
      ⟨200, .notesL ["registration created"]⟩ ∧
    c1World2.regs.length = 2 ∧
    (c1World1.regs.getD 0 dummyReg).completed = false ∧
    (c1World2.regs.getD 1 dummyReg).keystone_user =
      (c1World2.regs.getD 0 dummyReg).keystone_user ∧
    (c1World2.regs.getD 1 dummyReg).reg_ip =
      (c1World2.regs.getD 0 dummyReg).reg_ip ∧
    (c1World2.regs.getD 1 dummyReg).actions.map (fun a => a.adata) =
      (c1World2.regs.getD 0 dummyReg).actions.map (fun a => a.adata) := by
  refine ⟨by decide, by decide, by decide, by decide, by decide, by decide⟩

/-! Claim C3. -/

/-- C3: the ResetPassword responses are not identical across backend user
existence: with no backing user the call answers 400 "actions invalid",
with a backing user it answers 200 "created token" — while indeed no
password change (no backend mutation at all) happens without a backing
user. -/
theorem c3_reset_response_divergence :
    (resetPassword (initWorld emptyBackend) resetUserSerializer
      resetReqPayload "ip" anonKu true).2 =
        ⟨400, .errors ["actions invalid"]⟩ ∧
    (resetPassword (initWorld demoBackend) resetUserSerializer
      resetReqPayload "ip" anonKu true).2 =
        ⟨200, .notesL ["created token"]⟩ ∧
    (resetPassword (initWorld emptyBackend) resetUserSerializer
      resetReqPayload "ip" anonKu true).1.backend = emptyBackend := by
  refine ⟨by decide, by decide, by decide⟩

/-! Claim C2. -/

/-- A registration holding a single, invalid ResetUser action (its user does
not exist in the empty backend). -/
def c2World : World :=
  { backend := emptyBackend,
    regs := [{ dummyReg with
        actions := [newActionRec (.resetUser "bob" "bob@example.com") 0] }],
    tokens := [], notifs := [], nextUuid := 1, nextToken := 0, now := 5 }

/-- C2 counterexample: invoking the admin approval endpoint on a
not-yet-completed Task whose action turns out invalid finishes the
invocation with the validation rejection and the Task left unapproved —
approval is not marked unconditionally at the start. -/
theorem c2_counterexample :
    (regApprove c2World 0 true true).2 = ⟨400, .errors ["actions invalid"]⟩ ∧
    ((regApprove c2World 0 true true).1.regs.getD 0 dummyReg).approved =
      false ∧
    ((regApprove c2World 0 true true).1.regs.getD 0 dummyReg).approved_on =
      none := by
  refine ⟨by decide, by decide, by decide⟩

/-- C2 amended: the auto-approval operation `ActionView.approve` (and the
earlier-generation admin endpoint `api_v1 RegistrationDetail.post`) marks
the Task approved with the timestamp unconditionally at the start of the
invocation, before and independent of the outcome of post_approve — a Task
whose actions turn out invalid is still left approved there; the current
admin endpoint `RegistrationDetail.post` instead marks approval only after
every post_approve succeeded with all actions valid. -/
theorem c2_amended_approve_marks_unconditionally (w : World) (uuid : Nat)
    (tec : Bool) (reg : Registration) (hreg : findReg w uuid = some reg) :
    (∀ r ∈ (actionApprove w uuid tec).1.regs, r.uuid = uuid →
      r.approved = true ∧ r.approved_on = some w.now) ∧
    (reg.completed = false →
      ∀ r ∈ (regApproveV0 w uuid true).1.regs, r.uuid = uuid →
        r.approved = true ∧ r.approved_on = some w.now) := by
  obtain ⟨hmem, huuid⟩ := findReg_mem hreg
  constructor
  · unfold actionApprove
    simp only [hreg]
    repeat' split
    all_goals
      try (intro r hr he
           exact saveList_uuid_prop
             (fun q => q.approved = true ∧ q.approved_on = some w.now)
             ⟨rfl, rfl⟩ r hr (he.trans huuid.symm))
  · intro hcomp
    unfold regApproveV0
    simp only [hreg, hcomp]
    repeat' split
    all_goals
      try (intro r hr he
           exact saveList_uuid_prop
             (fun q => q.approved = true ∧ q.approved_on = some w.now)
             ⟨rfl, rfl⟩ r hr (he.trans huuid.symm))
    all_goals simp_all

/-- Witness for the amended C2: the auto-approval operation leaves the Task
of `c2World` approved even though its action is invalid. -/
theorem c2_witness :
    ((actionApprove c2World 0 true).1.regs.getD 0 dummyReg).approved = true ∧
    ((actionApprove c2World 0 true).1.regs.getD 0 dummyReg).approved_on =
      some c2World.now :=
  (c2_amended_approve_marks_unconditionally c2World 0 true
    { dummyReg with
        actions := [newActionRec (.resetUser "bob" "bob@example.com") 0] }
    (by decide)).1
    ((actionApprove c2World 0 true).1.regs.getD 0 dummyReg)
    (by decide) (by decide)

/-! Claim C9. -/

/-- C9: intake is all-or-nothing: if any configured serializer rejects the
payload, the world is unchanged — no Task and no Action rows — and the
outcome is the merged per-field error dict of exactly the failing
serializers; a Task is appended exactly when every serializer accepts. -/
theorem c9_intake_all_or_nothing (w : World) (cfg : List ActionConfig)
    (payload : Payload) (ip : String) (ku : KeystoneUser) :
    ((∃ s ∈ cfg, (s payload).isOk = false) →
      (process_actions w cfg payload ip ku).1 = w ∧
      (process_actions w cfg payload ip ku).2 =
        .failed (.fieldErrors
          (((cfg.map (fun s => s payload)).filter (fun r => !r.isOk)).foldl
            (fun acc r => dictUpdate acc r.errorsOf) []))) ∧
    ((∀ s ∈ cfg, (s payload).isOk = true) →
      ∃ reg, (process_actions w cfg payload ip ku).1.regs =
        w.regs ++ [reg] ∧ reg.uuid = w.nextUuid) := by
  constructor
  · rintro ⟨s, hs, hfail⟩
    have hall : ((cfg.map (fun s2 => s2 payload)).all SerResult.isOk) = false := by
      rw [List.all_eq_false]
      refine ⟨s payload, List.mem_map_of_mem _ hs, ?_⟩
      simp [hfail]
    unfold process_actions
    rw [if_neg (by simp [hall])]
    dsimp only
    rw [foldl_dictUpdate_failed]
    exact ⟨rfl, rfl⟩
  · intro hok
    have hall : ((cfg.map (fun s2 => s2 payload)).all SerResult.isOk) = true := by
      rw [List.all_eq_true]
      intro r hr
      rcases List.mem_map.mp hr with ⟨s, hs, rfl⟩
      exact hok s hs
    unfold process_actions
    rw [if_pos (by simp [hall])]
    dsimp only
    split
    · exact ⟨_, rfl, rfl⟩
    · exact ⟨_, rfl, rfl⟩

/-- Witness for C9 at a concrete rejected payload: nothing is created and
the merged field errors of the failing serializer are returned. -/
theorem c9_witness :
    (process_actions (initWorld emptyBackend) [newProjectSerializer]
      [("email", "a@b.com")] "ip" anonKu).1 = initWorld emptyBackend ∧
    (process_actions (initWorld emptyBackend) [newProjectSerializer]
      [("email", "a@b.com")] "ip" anonKu).2 =
      .failed (.fieldErrors
        ((([newProjectSerializer].map
            (fun s => s [("email", "a@b.com")])).filter
              (fun r => !r.isOk)).foldl
          (fun acc r => dictUpdate acc r.errorsOf) [])) :=
  (c9_intake_all_or_nothing (initWorld emptyBackend) [newProjectSerializer]
    [("email", "a@b.com")] "ip" anonKu).1
    ⟨newProjectSerializer, List.Mem.head _, by decide⟩

/-! Claim C7. -/

/-- The user sub-check both NewUser and NewProject validation perform, as
the spec words it: the user is absent, or exists with the matching email. -/
def userMatchOk (b : Backend) (username email : String) : Bool :=
  match find_user b username with
  | some u => u.email == email
  | none => true

/-- The pass condition of a NewUser validation run, stated from the spec's
description (requester authorization, project existence, user absent or
email matching); the comparison target for "valid is recomputed by every
validation phase". -/
def newUserChecksOk (b : Backend) (ku : KeystoneUser)
    (username email project_id : String) : Bool :=
  ("admin" ∈ ku.roles.getD [] || ku.project_id.getD "" == project_id) &&
  (get_project b project_id).isSome &&
  userMatchOk b username email

/-- The pass condition of a ResetUser validation run from the spec: the user
must exist with matching email. -/
def resetUserChecksOk (b : Backend) (username email : String) : Bool :=
  match find_user b username with
  | some u => u.email == email
  | none => false

/-- An action already validated in an earlier phase (valid = true). -/
def c7Action : ActionRec :=
  { newActionRec (.newUser "bob" "b1@example.com" "p1" "Member") 0 with
      valid := true }

/-- A backend in which bob exists with a different email and project p1
exists. -/
def c7Backend : Backend :=
  { users := [{ uname := "bob", email := "b2@example.com", password := "x" }],
    projects := [{ pid := "p1", pname := "proj" }], roles := [], grants := [],
    nextPid := 0 }

/-- C7 counterexample: a validation run whose checks fail (the user exists
with a non-matching email) returns with `valid` still true, carried over
from the earlier phase — the flag is not recomputed to the run's outcome. -/
theorem c7_counterexample :
    newUserValidate c7Backend adminKu c7Action "bob" "b1@example.com" "p1" =
      .ok (c7Action, ["Existing user with non-matching email."]) ∧
    c7Action.valid = true ∧
    newUserChecksOk c7Backend adminKu "bob" "b1@example.com" "p1" = false := by
  refine ⟨rfl, by decide, by decide⟩

/-- C7 amended: a validation run only upgrades the valid flag: afterwards
valid is the OR of its previous value and the run's checks passing, except
that NewProject's validation forces valid to false whenever the project name
already exists.  For a freshly constructed action (valid = false) the flag
therefore matches that run's checks, but a failing run does not clear a flag
set by an earlier run. -/
theorem c7_amended_valid_monotone (b : Backend) (ku : KeystoneUser)
    (a : ActionRec) :
    (∀ username email project_id res notes,
      newUserValidate b ku a username email project_id = .ok (res, notes) →
      res.valid = (a.valid ||
        newUserChecksOk b ku username email project_id)) ∧
    (∀ project_name username email,
      (newProjectValidateProject b a project_name username email).1.valid =
        (if (find_project b project_name).isSome then false
         else a.valid || userMatchOk b username email)) ∧
    (∀ username email,
      (resetUserValidate b a username email).1.valid =
        (a.valid || resetUserChecksOk b username email)) := by
  refine ⟨?_, ?_, ?_⟩
  · intro username email project_id res notes h
    unfold newUserValidate at h
    cases hkr : ku.roles with
    | none =>
        simp [kuRoles, hkr, bind, Except.bind] at h
    | some rs =>
        cases hkp : ku.project_id with
        | none =>
            simp only [kuRoles, kuProjectId, hkr, hkp, bind, Except.bind,
              pure, Except.pure] at h
            repeat' split at h
            all_goals rcases h with ⟨h1, h2⟩
            all_goals simp_all [newUserChecksOk, userMatchOk, beq_iff_eq]
        | some pid =>
            simp only [kuRoles, kuProjectId, hkr, hkp, bind, Except.bind,
              pure, Except.pure] at h
            repeat' split at h
            all_goals rcases h with ⟨h1, h2⟩
            all_goals simp_all [newUserChecksOk, userMatchOk, beq_iff_eq]
  · intro project_name username email
    unfold newProjectValidateProject
    cases hp : find_project b project_name with
    | some p =>
        cases hu : find_user b username with
        | some u =>
            by_cases he : u.email = email <;>
              simp_all [userMatchOk, beq_iff_eq]
        | none => simp_all [userMatchOk]
    | none =>
        cases hu : find_user b username with
        | some u =>
            by_cases he : u.email = email <;>
              simp_all [userMatchOk, beq_iff_eq]
        | none => simp_all [userMatchOk]
  · intro username email
    unfold resetUserValidate
    cases hu : find_user b username with
    | some u =>
        by_cases he : u.email = email <;>
          simp_all [resetUserChecksOk, beq_iff_eq]
    | none => simp_all [resetUserChecksOk]

/-- Witness for the amended C7 on a fresh action whose run fails its checks
(project does not exist): valid stays false, the OR of false and false. -/
theorem c7_witness :
    (newActionRec (.newUser "bob" "b@e.com" "p1" "Member") 0).valid =
      ((newActionRec (.newUser "bob" "b@e.com" "p1" "Member") 0).valid ||
        newUserChecksOk emptyBackend adminKu "bob" "b@e.com" "p1") :=
  (c7_amended_valid_monotone emptyBackend adminKu
    (newActionRec (.newUser "bob" "b@e.com" "p1" "Member") 0)).1
    "bob" "b@e.com" "p1"
    (newActionRec (.newUser "bob" "b@e.com" "p1" "Member") 0)
    ["Project does exist."] rfl

/-! Claim C8. -/

/-- A registration whose NewUser action raises during validation: the
requester claims carry no roles entry, so the `keystone_user` dict read
raises a KeyError. -/
def c8World : World :=
  { backend := emptyBackend,
    regs := [{ dummyReg with
        actions := [{ newActionRec
          (.newUser "bob" "bob@example.com" "p1" "Member") 0 with
            valid := true }] }],
    tokens := [], notifs := [], nextUuid := 1, nextToken := 0, now := 7 }

/-- C8 counterexample: when post_approve raises in the admin approval
endpoint, the Notification is recorded as claimed — but the caller response
is the notification notes themselves, carrying the underlying exception
detail, not the generic server error. -/
theorem c8_counterexample :
    (regApprove c8World 0 true true).2 =
      ⟨500, errNotes "roles" "approving" 0⟩ ∧
    (regApprove c8World 0 true true).1.notifs =
      [{ reg := 0, notes := errNotes "roles" "approving" 0 }] ∧
    (regApprove c8World 0 true true).2.body ≠ genericBody := by
  refine ⟨by decide, by decide, by decide⟩

/-- C8 amended: whenever post_approve raises, the orchestrator records a
Notification holding the formatted cause and the Task uuid; the
auto-approval operation then answers with the generic non-leaking server
error, but the admin approval endpoint answers with the notification notes
themselves, including the exception detail. -/
theorem c8_amended_fatal_error_policy (w : World) (uuid : Nat) (tec : Bool)
    (reg : Registration) (hreg : findReg w uuid = some reg) (e : String)
    (hpost : (postApproveFold w.backend reg.keystone_user
      (ordered reg.actions)).2.2 = some e) :
    ((ordered reg.actions).all (fun a => a.valid) = true →
      (actionApprove w uuid tec).1.notifs =
        w.notifs ++ [{ reg := uuid, notes := errNotes e "approving" uuid }] ∧
      (actionApprove w uuid tec).2 = ⟨500, genericBody⟩) ∧
    (reg.completed = false →
      (regApprove w uuid true tec).1.notifs =
        w.notifs ++ [{ reg := uuid, notes := errNotes e "approving" uuid }] ∧
      (regApprove w uuid true tec).2 =
        ⟨500, errNotes e "approving" uuid⟩) := by
  constructor
  · intro hall
    unfold actionApprove
    simp only [hreg]
    cases hf : postApproveFold w.backend reg.keystone_user
        (ordered reg.actions) with
    | mk b2 q =>
        obtain ⟨acts2, err⟩ := q
        rw [hf] at hpost
        dsimp only at hpost
        subst hpost
        simp [hall, saveReg, hf, addNotif]
  · intro hcomp
    unfold regApprove
    simp only [hreg, hcomp]
    cases hf : postApproveFold w.backend reg.keystone_user
        (ordered reg.actions) with
    | mk b2 q =>
        obtain ⟨acts2, err⟩ := q
        rw [hf] at hpost
        dsimp only at hpost
        subst hpost
        simp [saveReg, hf, addNotif]

/-- Witness for the amended C8 at the concrete raising input. -/
theorem c8_witness :
    (actionApprove c8World 0 true).1.notifs =
      c8World.notifs ++
        [{ reg := 0, notes := errNotes "roles" "approving" 0 }] ∧
    (actionApprove c8World 0 true).2 = ⟨500, genericBody⟩ :=
  (c8_amended_fatal_error_policy c8World 0 true
    { dummyReg with
        actions := [{ newActionRec
          (.newUser "bob" "bob@example.com" "p1" "Member") 0 with
            valid := true }] }
    (by decide) "roles" (by decide)).1 (by decide)

/-! Claim C5. -/

/-- C5: in the approve operation, when the incoming validity gate passes,
post_approve raises nowhere and every action is valid afterwards: if at
least one action still needs a token, exactly one Token is created for this
Task (with the fixed expiry) and the Task's completion flag is untouched;
if no action needs a token, submit runs on every action in ascending order
and — when no submit raises — the Task is marked completed with the
completion timestamp, and no Token is ever created. -/
theorem c5_approve_token_or_submit (w : World) (uuid : Nat) (tec : Bool)
    (reg : Registration) (hreg : findReg w uuid = some reg)
    (hpre : ((ordered reg.actions).all (fun a => a.valid)) = true)
    (b2 : Backend) (acts2 : List ActionRec)
    (hpost : postApproveFold w.backend reg.keystone_user (ordered reg.actions)
      = (b2, acts2, none))
    (hvalid : (acts2.all (fun a => a.valid)) = true) :
    ((acts2.any (fun a => a.need_token)) = true →
      (actionApprove w uuid tec).1.tokens =
        w.tokens ++ [{ reg := uuid, tokenId := w.nextToken,
                       expires := w.now + tokenLifetime }] ∧
      ∀ r ∈ (actionApprove w uuid tec).1.regs, r.uuid = uuid →
        r.completed = reg.completed) ∧
    ((acts2.any (fun a => a.need_token)) = false →
      (submitFold b2 reg.keystone_user [] acts2).2.2.2 = none →
      ((submitFold b2 reg.keystone_user [] acts2).2.2.1 =
        acts2.map (fun a => a.order) ∧
       List.Sorted (fun x y => x ≤ y) (acts2.map (fun a => a.order)) ∧
       (actionApprove w uuid tec).1.tokens = w.tokens ∧
       ∀ r ∈ (actionApprove w uuid tec).1.regs, r.uuid = uuid →
         r.completed = true ∧ r.completed_on = some w.now)) := by
  obtain ⟨hmem, huuid⟩ := findReg_mem hreg
  constructor
  · intro hneed
    unfold actionApprove
    simp only [hreg, saveReg]
    rw [hpost]
    dsimp only
    rw [hpre, hvalid, hneed]
    simp only [if_true, create_token, addNotif]
    constructor
    · split
      · rfl
      · rfl
    · split
      all_goals
        intro r hr he
        refine saveList_uuid_prop (fun q => q.completed = reg.completed)
          ?_ r hr (he.trans huuid.symm)
        rfl
  · intro hneed hsub
    refine ⟨submitFold_events_complete _ _ _ _ hsub, ?_, ?_⟩
    · have hs := ordered_orders_sorted reg.actions
      have ho := postApproveFold_orders w.backend reg.keystone_user
        (ordered reg.actions)
      rw [hpost] at ho
      dsimp only at ho
      rw [ho]
      exact hs
    · unfold actionApprove
      simp only [hreg, saveReg]
      rw [hpost]
      dsimp only
      rw [hpre, hvalid, hneed]
      simp only [if_true, Bool.false_eq_true, if_false]
      cases hsf : submitFold b2 reg.keystone_user [] acts2 with
      | mk b3 q =>
          obtain ⟨acts3, evs⟩ := q
          obtain ⟨evl, serr⟩ := evs
          rw [hsf] at hsub
          dsimp only at hsub
          subst hsub
          dsimp only
          refine ⟨rfl, ?_⟩
          intro r hr he
          refine saveList_uuid_prop
            (fun q => q.completed = true ∧ q.completed_on = some w.now)
            ?_ r hr (he.trans huuid.symm)
          exact ⟨rfl, rfl⟩

/-- A pre-validated NewUser registration still needing its token. -/
def c5Reg : Registration :=
  { dummyReg with
      keystone_user := adminKu
      actions := [{ newActionRec
        (.newUser "bob" "bob@example.com" "p1" "Member") 0 with
          valid := true }] }

/-- A world holding `c5Reg` and a backend where project p1 exists. -/
def c5World : World :=
  { backend := { users := [], projects := [{ pid := "p1", pname := "proj" }],
                 roles := defaultRoles, grants := [], nextPid := 0 },
    regs := [c5Reg], tokens := [], notifs := [], nextUuid := 1,
    nextToken := 0, now := 3 }

/-- Witness for C5 in the token branch: exactly one token appears and the
Task stays incomplete. -/
theorem c5_witness :
    (actionApprove c5World 0 true).1.tokens =
      [{ reg := 0, tokenId := 0, expires := 3 + tokenLifetime }] ∧
    ((actionApprove c5World 0 true).1.regs.getD 0 dummyReg).completed =
      false := by
  have h := c5_approve_token_or_submit c5World 0 true c5Reg (by decide)
    (by decide)
    (postApproveFold c5World.backend c5Reg.keystone_user
      (ordered c5Reg.actions)).1
    (postApproveFold c5World.backend c5Reg.keystone_user
      (ordered c5Reg.actions)).2.1
    (by decide) (by decide)
  have h1 := h.1 (by decide)
  refine ⟨h1.1, ?_⟩
  have h2 := h1.2 ((actionApprove c5World 0 true).1.regs.getD 0 dummyReg)
    (by decide) (by decide)
  simpa using h2

end Adjutant
